import Mathlib

/-!
Verification development for the WAV-transcription audio pipeline in
`packages/coding-agent/src/stt/transcribe.py`.

The Python code is shallowly embedded: floating-point sample values are
modelled as exact rationals (ℚ), machine integers as `Nat`/`Int`, and each
fallible stage returns `Except Err _`, where the `Err` constructors stand for
the exceptions the Python code raises (`ValueError` for an unsupported sample
width, numpy's reshape `ValueError` for a misaligned frame buffer, numpy's
`np.interp` "array of sample points is empty" `ValueError`, and Python's
`ZeroDivisionError`).
-/

namespace Transcribe

/-- Errors raised by the pipeline stages of `load_wav`. -/
inductive Err where
  /-- `raise ValueError(f"Unsupported sample width: {width}")` in `load_wav`. -/
  | unsupportedSampleWidth (width : Nat)
  /-- numpy `ValueError` raised by `audio.reshape(-1, channels)` when the
  sample count is not divisible by `channels`. -/
  | frameAlignment
  /-- numpy `ValueError` ("array of sample points is empty") raised by
  `np.interp` when the array of sample points `xp` is empty. -/
  | emptySamplePoints
  /-- Python `ZeroDivisionError` from `len(audio) * 16000 / rate` at `rate = 0`. -/
  | divisionByZero
  deriving DecidableEq, Repr

/-- The value a single raw PCM integer sample is normalized to, per sample
width, following the three branches of `load_wav`:
width 2 → `s / 32768.0`, width 1 → `(u - 128.0) / 128.0`,
width 4 → `s / 2147483648.0` (0 for unsupported widths, which `normalize`
rejects before this is ever used). -/
def normalizeSample (width : Nat) (v : Int) : ℚ :=
  if width = 2 then (v : ℚ) / 32768
  else if width = 1 then ((v : ℚ) - 128) / 128
  else if width = 4 then (v : ℚ) / 2147483648
  else 0

/-- The sample-normalization stage of `load_wav`: the raw buffer, already
reinterpreted as the list of fixed-width integer sample values (what
`np.frombuffer` yields), is mapped to floats branch by branch; any width
outside {1, 2, 4} raises `ValueError`. The branch order (2, then 1, then 4)
mirrors the source. -/
def normalize (width : Nat) (samples : List Int) : Except Err (List ℚ) :=
  if width = 2 then .ok (samples.map fun s : Int => (s : ℚ) / 32768)
  else if width = 1 then .ok (samples.map fun u : Int => ((u : ℚ) - 128) / 128)
  else if width = 4 then .ok (samples.map fun s : Int => (s : ℚ) / 2147483648)
  else .error (.unsupportedSampleWidth width)

/-- Mean of each group of `c` consecutive samples, in order: the effect of
`audio.reshape(-1, channels).mean(axis=1)` on a frame-aligned buffer. -/
def meanChunks (c : Nat) (xs : List ℚ) : List ℚ :=
  if h : c = 0 ∨ xs = [] then []
  else ((xs.take c).sum / (c : ℚ)) :: meanChunks c (xs.drop c)
  termination_by xs.length
  decreasing_by
    push_neg at h
    simp only [List.length_drop]
    exact Nat.sub_lt (List.length_pos.mpr h.2) (Nat.pos_of_ne_zero h.1)

/-- The channel-mixing stage of `load_wav`:
`if channels > 1: audio = audio.reshape(-1, channels).mean(axis=1)`.
numpy's `reshape(-1, channels)` raises `ValueError` when the sample count is
not divisible by `channels`; otherwise each row (group of `channels`
consecutive interleaved samples) is averaged. -/
def mixToMono (channels : Nat) (audio : List ℚ) : Except Err (List ℚ) :=
  if 1 < channels then
    if channels ∣ audio.length then .ok (meanChunks channels audio)
    else .error .frameAlignment
  else .ok audio

/-- `np.linspace a b n`: `n` evenly spaced points from `a` to `b` inclusive
(`[]` for `n = 0`, `[a]` for `n = 1`). -/
def linspace (a b : ℚ) (n : Nat) : List ℚ :=
  if n = 0 then []
  else if n = 1 then [a]
  else (List.range n).map fun k : Nat => a + (b - a) * (k : ℚ) / ((n : ℚ) - 1)

/-- Linear interpolation of `np.interp` at a single query position `x`,
specialized to the sample grid `xp = np.arange(len(fp))` used at the only
call site: clamp below 0 to the first sample and above `len(fp) - 1` to the
last, otherwise interpolate linearly between the two neighbouring samples
`⌊x⌋` and `⌊x⌋ + 1`. -/
def interpAt (fp : List ℚ) (x : ℚ) : ℚ :=
  if x ≤ 0 then fp.getD 0 0
  else if ((fp.length : ℚ) - 1) ≤ x then fp.getD (fp.length - 1) 0
  else
    let i := (⌊x⌋).toNat
    fp.getD i 0 + (x - (i : ℚ)) * (fp.getD (i + 1) 0 - fp.getD i 0)

/-- `np.interp(xs, np.arange(len(fp)), fp)`: raises `ValueError`
("array of sample points is empty") when the sample-point array is empty,
otherwise interpolates each query position. -/
def npInterp (xs : List ℚ) (fp : List ℚ) : Except Err (List ℚ) :=
  if fp = [] then .error .emptySamplePoints
  else .ok (xs.map (interpAt fp))

/-- The resampling stage of `load_wav`: a no-op at `rate = 16000`; otherwise
`target_len = int(len(audio) * 16000 / rate)` (truncating division, `Nat`
floor division here since all quantities are nonnegative; `rate = 0` raises
`ZeroDivisionError`) and
`np.interp(np.linspace(0, len(audio) - 1, target_len), np.arange(len(audio)), audio)`. -/
def resample (rate : Nat) (audio : List ℚ) : Except Err (List ℚ) :=
  if rate ≠ 16000 then
    if rate = 0 then .error .divisionByZero
    else
      npInterp (linspace 0 ((audio.length : ℚ) - 1) (audio.length * 16000 / rate))
        audio
  else .ok audio

/-- The whole of `load_wav` after the `wave` metadata has been read:
normalize, mix to mono, resample to 16 kHz. -/
def loadWav (width channels rate : Nat) (samples : List Int) :
    Except Err (List ℚ) := do
  let audio ← normalize width samples
  let mono ← mixToMono channels audio
  resample rate mono

/-- ASCII-letter test, the character class `[A-Za-z]` of the language
pattern. -/
def isAsciiLetter (c : Char) : Bool :=
  ('A' ≤ c && c ≤ 'Z') || ('a' ≤ c && c ≤ 'z')

/-- `re.fullmatch(r"[A-Za-z]{2,3}(-[A-Za-z]{2})?", language)` as a
recognizer: the full match succeeds exactly on the four shapes
2 letters, 3 letters, 2 letters + "-" + 2 letters, 3 letters + "-" + 2
letters. -/
def matchesLangPattern : List Char → Bool
  | [a, b] => isAsciiLetter a && isAsciiLetter b
  | [a, b, c] => isAsciiLetter a && isAsciiLetter b && isAsciiLetter c
  | [a, b, h, d, e] =>
      isAsciiLetter a && isAsciiLetter b && h == '-' &&
      isAsciiLetter d && isAsciiLetter e
  | [a, b, c, h, d, e] =>
      isAsciiLetter a && isAsciiLetter b && isAsciiLetter c && h == '-' &&
      isAsciiLetter d && isAsciiLetter e
  | _ => false

/-- Declarative reading of full-matching `^[A-Za-z]{2,3}(-[A-Za-z]{2})?$`:
the string splits into a stem of 2 or 3 ASCII letters and an optional
suffix of a hyphen followed by exactly 2 ASCII letters, with nothing left
over. -/
def LangPatternSpec (cs : List Char) : Prop :=
  ∃ pre suf : List Char,
    cs = pre ++ suf ∧
    (pre.length = 2 ∨ pre.length = 3) ∧
    (∀ c ∈ pre, isAsciiLetter c = true) ∧
    (suf = [] ∨ ∃ d e, suf = ['-', d, e] ∧
      isAsciiLetter d = true ∧ isAsciiLetter e = true)

/-- Observable events of `main`, in program order. -/
inductive Event where
  | printUsage
  | printInvalidLang (lang : String)
  | exitCode (n : Nat)
  | openFile (path : String)
  | loadModel (name : String)
  | transcribeRun
  | printText
  deriving DecidableEq, Repr

/-- The trace of observable events of `main argv` (`argv` includes the
program name at index 0, as `sys.argv` does): fewer than 2 arguments prints
usage and exits 1; an invalid language code prints a diagnostic and exits 1;
otherwise the WAV file is opened (`load_wav`), the model loaded, and the
transcription printed. Defaults mirror
`sys.argv[2] if len(sys.argv) > 2 else "base.en"` and
`sys.argv[3] if len(sys.argv) > 3 else "en"`. -/
def mainTrace (argv : List String) : List Event :=
  if argv.length < 2 then [.printUsage, .exitCode 1]
  else
    let audio_path := argv.getD 1 ""
    let model_name := argv.getD 2 "base.en"
    let language := argv.getD 3 "en"
    if matchesLangPattern language.toList then
      [.openFile audio_path, .loadModel model_name, .transcribeRun, .printText]
    else
      [.printInvalidLang language, .exitCode 1]

/-- Interleaving of a list of 2-channel frames into the flat sample
sequence `[a0, b0, a1, b1, ...]`. -/
def interleave2 : List (ℚ × ℚ) → List ℚ
  | [] => []
  | (a, b) :: rest => a :: b :: interleave2 rest

/-- C9: resampling a mono sequence whose source rate already equals the
16000 Hz target returns the identical sequence: the `if rate != 16000`
branch of `load_wav` is skipped and no transformation is applied. -/
theorem C9_resample_source_eq_target_identity (audio : List ℚ) :
    resample 16000 audio = .ok audio := by
  simp [resample]

/-- C10: resampling an empty mono sequence at a source rate different from
16000 Hz does not return an empty sequence: `np.interp` raises a
`ValueError` ("array of sample points is empty") because the array of
original sample points `np.arange(0)` is empty. -/
theorem C10_resample_empty_raises (rate : Nat) (hne : rate ≠ 16000)
    (hpos : 0 < rate) :
    resample rate ([] : List ℚ) = .error .emptySamplePoints := by
  simp [resample, npInterp, hne, hpos.ne']

/-- Witness for C10 at the concrete rate 44100. -/
theorem C10_resample_empty_raises_witness :
    resample 44100 ([] : List ℚ) = .error .emptySamplePoints :=
  C10_resample_empty_raises 44100 (by decide) (by decide)

/-- C7: the normalizer fails with the unsupported-sample-width error for
every width outside {1, 2, 4}; for widths 1, 2 and 4 it succeeds with the
pointwise (order-preserving) map of `normalizeSample`, whose output length
equals the number of input samples. -/
theorem C7_normalize_width_errors :
    (∀ w, w ≠ 1 → w ≠ 2 → w ≠ 4 → ∀ samples : List Int,
      normalize w samples = .error (.unsupportedSampleWidth w)) ∧
    (∀ w, w = 1 ∨ w = 2 ∨ w = 4 → ∀ samples : List Int,
      normalize w samples = .ok (samples.map (normalizeSample w)) ∧
      (samples.map (normalizeSample w)).length = samples.length) := by
  constructor
  · intro w h1 h2 h4 samples
    simp [normalize, h1, h2, h4]
  · intro w hw samples
    rcases hw with rfl | rfl | rfl <;> refine ⟨?_, by simp⟩
    · show normalize 1 samples = .ok (samples.map fun v => normalizeSample 1 v)
      simp only [normalize, normalizeSample, Nat.reduceEqDiff, reduceIte]
    · show normalize 2 samples = .ok (samples.map fun v => normalizeSample 2 v)
      simp only [normalize, normalizeSample, Nat.reduceEqDiff, reduceIte]
    · show normalize 4 samples = .ok (samples.map fun v => normalizeSample 4 v)
      simp only [normalize, normalizeSample, Nat.reduceEqDiff, reduceIte]

/-- Witness for C7: width 3 is rejected on a concrete sample list. -/
theorem C7_normalize_width_errors_witness :
    normalize 3 [5, 7] = .error (.unsupportedSampleWidth 3) :=
  C7_normalize_width_errors.1 3 (by decide) (by decide) (by decide) [5, 7]

/-- C3: for each supported width, every in-range raw sample value is
normalized into [-1, 1], and the minimum representable raw value (0 for the
offset-unsigned width 1, -32768 for width 2, -2147483648 for width 4) maps
to exactly -1. -/
theorem C3_normalize_bounds :
    (∀ v : Int, 0 ≤ v → v ≤ 255 →
      -1 ≤ normalizeSample 1 v ∧ normalizeSample 1 v ≤ 1) ∧
    normalizeSample 1 0 = -1 ∧
    (∀ v : Int, -32768 ≤ v → v ≤ 32767 →
      -1 ≤ normalizeSample 2 v ∧ normalizeSample 2 v ≤ 1) ∧
    normalizeSample 2 (-32768) = -1 ∧
    (∀ v : Int, -2147483648 ≤ v → v ≤ 2147483647 →
      -1 ≤ normalizeSample 4 v ∧ normalizeSample 4 v ≤ 1) ∧
    normalizeSample 4 (-2147483648) = -1 := by
  have h128 : (0 : ℚ) < 128 := by norm_num
  have h32768 : (0 : ℚ) < 32768 := by norm_num
  have h2p31 : (0 : ℚ) < 2147483648 := by norm_num
  refine ⟨?_, ?_, ?_, ?_, ?_, ?_⟩
  · intro v hlo hhi
    have hlo' : (0 : ℚ) ≤ (v : ℚ) := by exact_mod_cast hlo
    have hhi' : (v : ℚ) ≤ 255 := by exact_mod_cast hhi
    simp only [normalizeSample]
    norm_num
    constructor
    · rw [le_div_iff₀ h128]; linarith
    · rw [div_le_one h128]; linarith
  · norm_num [normalizeSample]
  · intro v hlo hhi
    have hlo' : (-32768 : ℚ) ≤ (v : ℚ) := by exact_mod_cast hlo
    have hhi' : (v : ℚ) ≤ 32767 := by exact_mod_cast hhi
    simp only [normalizeSample]
    norm_num
    constructor
    · rw [le_div_iff₀ h32768]; linarith
    · rw [div_le_one h32768]; linarith
  · norm_num [normalizeSample]
  · intro v hlo hhi
    have hlo' : (-2147483648 : ℚ) ≤ (v : ℚ) := by exact_mod_cast hlo
    have hhi' : (v : ℚ) ≤ 2147483647 := by exact_mod_cast hhi
    simp only [normalizeSample]
    norm_num
    constructor
    · rw [le_div_iff₀ h2p31]; linarith
    · rw [div_le_one h2p31]; linarith
  · norm_num [normalizeSample]

/-- Witness for C3 at the concrete width-2 raw value -12345. -/
theorem C3_normalize_bounds_witness :
    -1 ≤ normalizeSample 2 (-12345) ∧ normalizeSample 2 (-12345) ≤ 1 :=
  C3_normalize_bounds.2.2.1 (-12345) (by decide) (by decide)

theorem meanChunks_nil (c : Nat) : meanChunks c [] = [] := by
  rw [meanChunks]; simp

theorem meanChunks_cons (c : Nat) (hc : c ≠ 0) (xs : List ℚ) (hxs : xs ≠ []) :
    meanChunks c xs = ((xs.take c).sum / (c : ℚ)) :: meanChunks c (xs.drop c) := by
  rw [meanChunks]; simp [hc, hxs]

theorem meanChunks_length (c : Nat) (hc : 0 < c) (m : Nat) (xs : List ℚ)
    (h : xs.length = c * m) : (meanChunks c xs).length = m := by
  induction m generalizing xs with
  | zero =>
    have hxs : xs = [] := List.length_eq_zero.mp (by simpa using h)
    subst hxs
    simp [meanChunks_nil]
  | succ m ih =>
    have hxs : xs ≠ [] := by
      intro h0
      subst h0
      have := Nat.mul_pos hc (Nat.succ_pos m)
      simp at h
      omega
    rw [meanChunks_cons c hc.ne' xs hxs]
    have hdrop : (xs.drop c).length = c * m := by
      rw [List.length_drop, h, Nat.mul_succ]
      omega
    simp [ih (xs.drop c) hdrop]

theorem meanChunks_getD (c : Nat) (hc : 0 < c) (xs : List ℚ) (k : Nat)
    (hk : c * k < xs.length) :
    (meanChunks c xs).getD k 0 = ((xs.drop (c * k)).take c).sum / (c : ℚ) := by
  induction k generalizing xs with
  | zero =>
    have hxs : xs ≠ [] := by intro h0; subst h0; simp at hk
    rw [meanChunks_cons c hc.ne' xs hxs]
    simp
  | succ k ih =>
    have hxs : xs ≠ [] := by intro h0; subst h0; simp at hk
    rw [meanChunks_cons c hc.ne' xs hxs]
    have hk' : c * k < (xs.drop c).length := by
      rw [List.length_drop]
      rw [Nat.mul_succ] at hk
      omega
    have hdd : (xs.drop c).drop (c * k) = xs.drop (c * (k + 1)) := by
      rw [List.drop_drop, Nat.mul_succ]
      ring_nf
    simp only [List.getD_cons_succ]
    rw [ih (xs.drop c) hk', hdd]

theorem interleave2_length (l : List (ℚ × ℚ)) :
    (interleave2 l).length = 2 * l.length := by
  induction l with
  | nil => rfl
  | cons p rest ih =>
    obtain ⟨a, b⟩ := p
    simp [interleave2, ih]
    ring

theorem meanChunks_two_interleave2 (l : List (ℚ × ℚ)) :
    meanChunks 2 (interleave2 l) = l.map fun p => (p.1 + p.2) / 2 := by
  induction l with
  | nil => simp [interleave2, meanChunks_nil]
  | cons p rest ih =>
    obtain ⟨a, b⟩ := p
    show meanChunks 2 (a :: b :: interleave2 rest) = _
    rw [meanChunks_cons 2 (by decide) _ (by simp)]
    simp [ih]

/-- C4: mixing with 1 channel returns the sequence unchanged; mixing with
`c > 1` channels on a `c`-aligned sequence replaces each group of `c`
consecutive samples by its arithmetic mean, in temporal order; in particular
an interleaved 2-channel sequence `[a0, b0, a1, b1, ...]` mixes to
`[(a0 + b0) / 2, (a1 + b1) / 2, ...]`. -/
theorem C4_mix_arithmetic_mean :
    (∀ audio : List ℚ, mixToMono 1 audio = .ok audio) ∧
    (∀ c : Nat, 1 < c → ∀ audio : List ℚ, ∀ m : Nat, audio.length = c * m →
      mixToMono c audio = .ok (meanChunks c audio) ∧
      (meanChunks c audio).length = m ∧
      ∀ k, k < m →
        (meanChunks c audio).getD k 0 =
          ((audio.drop (c * k)).take c).sum / (c : ℚ)) ∧
    (∀ l : List (ℚ × ℚ),
      mixToMono 2 (interleave2 l) = .ok (l.map fun p => (p.1 + p.2) / 2)) := by
  refine ⟨?_, ?_, ?_⟩
  · intro audio
    simp [mixToMono]
  · intro c hc audio m hm
    have hdvd : c ∣ audio.length := ⟨m, hm⟩
    have hcpos : 0 < c := by omega
    refine ⟨by simp [mixToMono, hc, hdvd], meanChunks_length c hcpos m audio hm, ?_⟩
    intro k hk
    exact meanChunks_getD c hcpos audio k
      (by rw [hm]; exact (mul_lt_mul_left hcpos).mpr hk)
  · intro l
    have hdvd : (2 : Nat) ∣ (interleave2 l).length := ⟨l.length, interleave2_length l⟩
    simp [mixToMono, hdvd, meanChunks_two_interleave2]

/-- Witness for C4: 2 channels on the concrete aligned sequence
`[1, 2, 3, 4]`. -/
theorem C4_mix_arithmetic_mean_witness :
    mixToMono 2 [1, 2, 3, 4] = .ok (meanChunks 2 [1, 2, 3, 4]) :=
  (C4_mix_arithmetic_mean.2.1 2 (by decide) [1, 2, 3, 4] 2 (by decide)).1

/-- C8: for every channel count greater than 1, the mixer fails with the
frame-alignment error exactly when the sample count is not divisible by the
channel count. -/
theorem C8_mix_frame_alignment (c : Nat) (hc : 1 < c) (audio : List ℚ) :
    mixToMono c audio = .error .frameAlignment ↔ ¬ c ∣ audio.length := by
  simp only [mixToMono, if_pos hc]
  by_cases h : c ∣ audio.length <;> simp [h]

/-- Witness for C8: 2 channels with 3 samples is misaligned. -/
theorem C8_mix_frame_alignment_witness :
    mixToMono 2 [1, 2, 3] = .error .frameAlignment ↔
      ¬ 2 ∣ List.length ([1, 2, 3] : List ℚ) :=
  C8_mix_frame_alignment 2 (by decide) [1, 2, 3]

theorem linspace_length (a b : ℚ) (n : Nat) : (linspace a b n).length = n := by
  rw [linspace]
  split_ifs with h0 h1
  · simp [h0]
  · simp [h1]
  · simp

theorem linspace_getD (a b : ℚ) (n k : Nat) (h2 : 2 ≤ n) (hk : k < n) :
    (linspace a b n).getD k 0 = a + (b - a) * (k : ℚ) / ((n : ℚ) - 1) := by
  rw [linspace, if_neg (by omega), if_neg (by omega)]
  simp [List.getD_eq_getElem?_getD, List.getElem?_map, List.getElem?_range, hk]

/-- `np.interp` at a query position that is exactly an in-range integer
sample index returns that sample exactly. -/
theorem interpAt_intIndex (fp : List ℚ) (i : Nat) (hi : i < fp.length) :
    interpAt fp (i : ℚ) = fp.getD i 0 := by
  rcases Nat.eq_zero_or_pos i with rfl | hpos
  · simp [interpAt]
  · have hx : ¬ ((i : ℚ) ≤ 0) := by
      rw [not_le]
      exact_mod_cast hpos
    by_cases hlast : ((fp.length : ℚ) - 1) ≤ (i : ℚ)
    · have hlen : fp.length - 1 ≤ i := by
        have h1 : (fp.length : ℚ) ≤ (i : ℚ) + 1 := by linarith
        have h2 : fp.length ≤ i + 1 := by exact_mod_cast h1
        omega
      have hieq : fp.length - 1 = i := by omega
      rw [interpAt, if_neg hx, if_pos hlast, hieq]
    · rw [interpAt, if_neg hx, if_neg hlast]
      simp [Int.floor_natCast]

/-- C1 as stated fails on the code: for the 3-sample sequence `[1, 2, 3]` at
source rate 32000, the code's output length is `int(3 * 16000 / 32000) = 1`
(truncation), while `round(3 * 16000 / 32000) = round(1.5) = 2`. -/
theorem C1_length_round_counterexample :
    resample 32000 [1, 2, 3] = .ok [1] ∧
    round (((3 : ℚ) * 16000) / 32000) = 2 ∧ (1 : Nat) ≠ 2 := by
  refine ⟨by rfl, ?_, by decide⟩
  rw [round_eq]
  norm_num

/-- C1 amended: for every nonempty mono sequence at a positive source rate
different from 16000, the resampler's output length equals
`⌊L × 16000 / R1⌋` (the truncation `int(...)` performs on nonnegative
values), not `round(L × 16000 / R1)`. -/
theorem C1_length_floor (rate : Nat) (hne : rate ≠ 16000) (hpos : 0 < rate)
    (audio : List ℚ) (hnonempty : audio ≠ []) :
    (resample rate audio).toOption.map List.length =
      some (audio.length * 16000 / rate) := by
  simp [resample, npInterp, hne, hpos.ne', hnonempty, Except.toOption,
    linspace_length]

/-- Witness for the amended C1 at `[1, 2, 3]`, rate 32000. -/
theorem C1_length_floor_witness :
    (resample 32000 [1, 2, 3]).toOption.map List.length =
      some (List.length ([1, 2, 3] : List ℚ) * 16000 / 32000) :=
  C1_length_floor 32000 (by decide) (by decide) [1, 2, 3] (by decide)

/-- C2: for every nonempty mono sequence at a positive source rate other
than 16000, the resampler output is exactly the linear interpolation of the
original samples at the `L' = int(L * 16000 / rate)` query positions
`np.linspace 0 (L - 1) L'`; those positions are evenly spaced across
`[0, L-1]` inclusive (`k`-th position `(L - 1) * k / (L' - 1)` whenever
`L' ≥ 2`); and a query position that is exactly an original integer index
yields that original sample value exactly. -/
theorem C2_resample_linear_interpolation (rate : Nat) (audio : List ℚ)
    (hne : audio ≠ []) (hr : rate ≠ 16000) (hpos : 0 < rate) :
    resample rate audio =
      .ok ((linspace 0 ((audio.length : ℚ) - 1)
        (audio.length * 16000 / rate)).map (interpAt audio)) ∧
    (∀ k, 2 ≤ audio.length * 16000 / rate → k < audio.length * 16000 / rate →
      (linspace 0 ((audio.length : ℚ) - 1)
          (audio.length * 16000 / rate)).getD k 0 =
        ((audio.length : ℚ) - 1) * (k : ℚ) /
          (((audio.length * 16000 / rate : Nat) : ℚ) - 1)) ∧
    (∀ i : Nat, i < audio.length → interpAt audio (i : ℚ) = audio.getD i 0) := by
  refine ⟨?_, ?_, ?_⟩
  · simp [resample, npInterp, hne, hr, hpos.ne']
  · intro k h2 hk
    rw [linspace_getD 0 ((audio.length : ℚ) - 1) _ k h2 hk]
    ring
  · intro i hi
    exact interpAt_intIndex audio i hi

/-- Witness for C2 at `[1, 2, 3, 4]`, rate 8000. -/
theorem C2_resample_linear_interpolation_witness :
    resample 8000 [1, 2, 3, 4] =
      .ok ((linspace 0 ((List.length ([1, 2, 3, 4] : List ℚ) : ℚ) - 1)
        (List.length ([1, 2, 3, 4] : List ℚ) * 16000 / 8000)).map
          (interpAt [1, 2, 3, 4])) :=
  (C2_resample_linear_interpolation 8000 [1, 2, 3, 4]
    (by decide) (by decide) (by decide)).1

theorem mem_two {x a b : Char} (hx : x ∈ [a, b]) : x = a ∨ x = b := by
  simpa using hx

theorem mem_three {x a b c : Char} (hx : x ∈ [a, b, c]) :
    x = a ∨ x = b ∨ x = c := by
  simpa using hx

/-- The recognizer compiled from the regex accepts exactly the strings
described declaratively by `LangPatternSpec`. -/
theorem matchesLangPattern_iff (cs : List Char) :
    matchesLangPattern cs = true ↔ LangPatternSpec cs := by
  constructor
  · intro h
    rcases cs with _ | ⟨a, _ | ⟨b, _ | ⟨c, _ | ⟨d, _ | ⟨e, _ | ⟨f, rest⟩⟩⟩⟩⟩⟩
    · simp [matchesLangPattern] at h
    · simp [matchesLangPattern] at h
    · simp only [matchesLangPattern, Bool.and_eq_true] at h
      refine ⟨[a, b], [], by simp, Or.inl rfl, ?_, Or.inl rfl⟩
      intro x hx
      rcases mem_two hx with rfl | rfl
      · exact h.1
      · exact h.2
    · simp only [matchesLangPattern, Bool.and_eq_true] at h
      refine ⟨[a, b, c], [], by simp, Or.inr rfl, ?_, Or.inl rfl⟩
      intro x hx
      rcases mem_three hx with rfl | rfl | rfl
      · exact h.1.1
      · exact h.1.2
      · exact h.2
    · simp [matchesLangPattern] at h
    · simp only [matchesLangPattern, Bool.and_eq_true, beq_iff_eq] at h
      obtain ⟨⟨⟨⟨ha, hb⟩, hc⟩, hd⟩, he⟩ := h
      subst hc
      refine ⟨[a, b], ['-', d, e], by simp, Or.inl rfl, ?_,
        Or.inr ⟨d, e, rfl, hd, he⟩⟩
      intro x hx
      rcases mem_two hx with rfl | rfl
      · exact ha
      · exact hb
    · rcases rest with _ | ⟨g, rest⟩
      · simp only [matchesLangPattern, Bool.and_eq_true, beq_iff_eq] at h
        obtain ⟨⟨⟨⟨⟨ha, hb⟩, hc⟩, hd⟩, he⟩, hf⟩ := h
        subst hd
        refine ⟨[a, b, c], ['-', e, f], by simp, Or.inr rfl, ?_,
          Or.inr ⟨e, f, rfl, he, hf⟩⟩
        intro x hx
        rcases mem_three hx with rfl | rfl | rfl
        · exact ha
        · exact hb
        · exact hc
      · simp [matchesLangPattern] at h
  · intro h
    obtain ⟨pre, suf, rfl, hlen, hall, hsuf⟩ := h
    rcases hlen with h2 | h3
    · obtain ⟨a, b, rfl⟩ := List.length_eq_two.mp h2
      rcases hsuf with rfl | ⟨d, e, rfl, hd, he⟩
      · simp [matchesLangPattern, hall a (by simp), hall b (by simp)]
      · simp [matchesLangPattern, hall a (by simp), hall b (by simp), hd, he]
    · obtain ⟨a, b, c, rfl⟩ := List.length_eq_three.mp h3
      rcases hsuf with rfl | ⟨d, e, rfl, hd, he⟩
      · simp [matchesLangPattern, hall a (by simp), hall b (by simp),
          hall c (by simp)]
      · simp [matchesLangPattern, hall a (by simp), hall b (by simp),
          hall c (by simp), hd, he]

/-- C5: the language validator accepts exactly the full matches of
`^[A-Za-z]{2,3}(-[A-Za-z]{2})?$` (characterized declaratively by
`LangPatternSpec`); "en", "eng" and "zh-CN" are accepted while "e",
"english", "en_US" and "" are rejected; and on rejection `main` is a hard
stop (exit code 1, and the transcription step never runs — no default
language is substituted). -/
theorem C5_language_validator :
    (∀ cs : List Char, matchesLangPattern cs = true ↔ LangPatternSpec cs) ∧
    matchesLangPattern "en".toList = true ∧
    matchesLangPattern "eng".toList = true ∧
    matchesLangPattern "zh-CN".toList = true ∧
    matchesLangPattern "e".toList = false ∧
    matchesLangPattern "english".toList = false ∧
    matchesLangPattern "en_US".toList = false ∧
    matchesLangPattern "".toList = false ∧
    (∀ argv : List String, 2 ≤ argv.length →
      matchesLangPattern (argv.getD 3 "en").toList = false →
      Event.exitCode 1 ∈ mainTrace argv ∧
      Event.transcribeRun ∉ mainTrace argv) := by
  refine ⟨matchesLangPattern_iff, by decide, by decide, by decide, by decide,
    by decide, by decide, by decide, ?_⟩
  intro argv h2 hbad
  have htrace : mainTrace argv =
      [.printInvalidLang (argv.getD 3 "en"), .exitCode 1] := by
    have hbad' : matchesLangPattern (argv[3]?.getD "en").data = false := by
      simpa only [List.getD_eq_getElem?_getD, String.toList] using hbad
    rw [mainTrace, if_neg (by omega)]
    simp [hbad']
  rw [htrace]
  simp

/-- Witness for C5's hard-stop conjunct at a concrete rejected invocation. -/
theorem C5_language_validator_witness :
    Event.exitCode 1 ∈
      mainTrace ["transcribe.py", "a.wav", "base.en", "en_US"] :=
  (C5_language_validator.2.2.2.2.2.2.2.2
    ["transcribe.py", "a.wav", "base.en", "en_US"] (by decide) (by decide)).1

/-- C6: when `main` is invoked with at least an audio-path argument but an
invalid language tag, the whole observable trace is the invalid-language
diagnostic followed by exit code 1: the audio file is never opened and the
model is never loaded (validation precedes all file I/O and model
loading). -/
theorem C6_invalid_language_fails_before_io (argv : List String)
    (h2 : 2 ≤ argv.length)
    (hbad : matchesLangPattern (argv.getD 3 "en").toList = false) :
    mainTrace argv = [.printInvalidLang (argv.getD 3 "en"), .exitCode 1] ∧
    (∀ p, Event.openFile p ∉ mainTrace argv) ∧
    (∀ m, Event.loadModel m ∉ mainTrace argv) := by
  have htrace : mainTrace argv =
      [.printInvalidLang (argv.getD 3 "en"), .exitCode 1] := by
    have hbad' : matchesLangPattern (argv[3]?.getD "en").data = false := by
      simpa only [List.getD_eq_getElem?_getD, String.toList] using hbad
    rw [mainTrace, if_neg (by omega)]
    simp [hbad']
  refine ⟨htrace, ?_, ?_⟩ <;> intro x <;> rw [htrace] <;> simp

/-- Witness for C6 at the concrete invocation with language "english". -/
theorem C6_invalid_language_fails_before_io_witness :
    mainTrace ["transcribe.py", "audio.wav", "base.en", "english"] =
      [.printInvalidLang
        ((["transcribe.py", "audio.wav", "base.en", "english"] :
          List String).getD 3 "en"), .exitCode 1] :=
  (C6_invalid_language_fails_before_io
    ["transcribe.py", "audio.wav", "base.en", "english"]
    (by decide) (by decide)).1

end Transcribe
